import Mathlib

/-!
Verification development for the deepresearch repository.

The repository has two cores (spec §2): a stream aggregator
(`generate_due_diligence_report_stream` in `src/views/research_brand.py`)
and a markdown-to-PDF paginator (`md_to_pdf` in the same file).  Text is
modelled as `List Char` (Python `str`), byte strings as `List Nat`.
External collaborators (Python's UTF-8 codec, the FPDF library) are
modelled by their observable behaviour at the call sites the source uses.
-/

namespace Deepresearch

/-- Python whitespace predicate restricted to the characters `str.isspace`,
`str.strip`, `str.split` and the regex class `\s` agree on: ASCII
whitespace, the C1 separators, NEL, NBSP and the Unicode space family.
Used to model `rstrip()`, `strip()`, `split()` and `\s` in the line
classifier of `md_to_pdf`. -/
def isPySpace (c : Char) : Bool :=
  c == ' ' || c == '\t' || c == '\n' || c == Char.ofNat 11 || c == Char.ofNat 12 ||
  c == '\r' || c == Char.ofNat 28 || c == Char.ofNat 29 || c == Char.ofNat 30 ||
  c == Char.ofNat 31 || c == Char.ofNat 133 || c == Char.ofNat 160 ||
  c == Char.ofNat 0x1680 || (0x2000 ≤ c.toNat && c.toNat ≤ 0x200A) ||
  c == Char.ofNat 0x2028 || c == Char.ofNat 0x2029 || c == Char.ofNat 0x202F ||
  c == Char.ofNat 0x205F || c == Char.ofNat 0x3000

/-- Model of Python `str.lstrip()` (also of the text a greedy `\s+` leaves
behind for a following `(.*)$` group). -/
def lstrip (s : List Char) : List Char := s.dropWhile isPySpace

/-- Model of Python `str.rstrip()` as used on every raw line in
`md_to_pdf` (line 339 of `src/views/research_brand.py`). -/
def rstrip (s : List Char) : List Char := (s.reverse.dropWhile isPySpace).reverse

/-- Model of Python `str.strip()` as used by the `not md.strip()`
validation check (line 217) and the blank-line test (line 377). -/
def pyStrip (s : List Char) : List Char := lstrip (rstrip s)

/-- Line-break characters of Python `str.splitlines()` that can occur in
latin-1 text, plus the two Unicode separators (`md.splitlines()`,
line 334). -/
def isLineBreak (c : Char) : Bool :=
  c == '\n' || c == '\r' || c == Char.ofNat 11 || c == Char.ofNat 12 ||
  c == Char.ofNat 28 || c == Char.ofNat 29 || c == Char.ofNat 30 ||
  c == Char.ofNat 133 || c == Char.ofNat 0x2028 || c == Char.ofNat 0x2029

/-- State of the `splitlines` scanner: finished lines, current line,
and whether the previous character was a carriage return (so that a
following newline is part of the same `\r\n` break). -/
structure SplitLnSt where
  lns : List (List Char)
  cur : List Char
  lastCR : Bool
deriving DecidableEq

/-- One step of the `splitlines` scanner. -/
def splitlinesStep (st : SplitLnSt) (c : Char) : SplitLnSt :=
  if st.lastCR && (c == '\n') then { st with lastCR := false }
  else if isLineBreak c then { lns := st.lns ++ [st.cur], cur := [], lastCR := c == '\r' }
  else { lns := st.lns, cur := st.cur ++ [c], lastCR := false }

/-- Model of Python `str.splitlines()` (line 334): split at line breaks,
`\r\n` counting as one break, with no trailing empty line. -/
def splitlines (s : List Char) : List (List Char) :=
  let st := s.foldl splitlinesStep { lns := [], cur := [], lastCR := false }
  if st.cur = [] then st.lns else st.lns ++ [st.cur]

/-- State of the whitespace tokenizer modelling `str.split()`. -/
structure SplitTokSt where
  toks : List (List Char)
  cur : List Char
deriving DecidableEq

/-- One step of the whitespace tokenizer. -/
def pySplitStep (st : SplitTokSt) (c : Char) : SplitTokSt :=
  if isPySpace c then
    if st.cur = [] then st else { toks := st.toks ++ [st.cur], cur := [] }
  else { st with cur := st.cur ++ [c] }

/-- Model of Python `str.split()` with no arguments, as used by
`write_wrapped` (line 300): split on whitespace runs, never yielding an
empty token. -/
def pySplit (s : List Char) : List (List Char) :=
  let st := s.foldl pySplitStep { toks := [], cur := [] }
  if st.cur = [] then st.toks else st.toks ++ [st.cur]

/-- One classified markdown block (spec §3 Document): produced per line by
the loop of `md_to_pdf` (lines 337-389).  A heading carries the font size
actually selected for rendering and its (truncated) title. -/
inductive Block
  | heading (size : Nat) (title : List Char)
  | bullet (text : List Char)
  | blank
  | para (text : List Char)
deriving DecidableEq

/-- Embedding of `size_map = {1: 16, 2: 14, 3: 12}` (line 352); the lookup
is only ever performed at levels 1-3. -/
def sizeMap (level : Nat) : Nat :=
  if level = 1 then 16 else if level = 2 then 14 else 12

/-- Font size a heading of marker depth `n` renders at:
`size_map[min(len(h.group(1)), 3)]` (lines 349, 352-354). -/
def headingSize (n : Nat) : Nat := sizeMap (min n 3)

/-- Length of the maximal run of leading `#` characters, used to embed the
regex `^(#{1,6})\s+(.*)$` (line 347). -/
def countHashes : List Char → Nat
  | [] => 0
  | c :: rest => if c = '#' then countHashes rest + 1 else 0

/-- Embedding of `re.match(r"^(#{1,6})\s+(.*)$", line)` (line 347): the
line must start with one to six `#` markers followed by at least one
whitespace character; the greedy `\s+` leaves the title group with its
leading whitespace stripped. -/
def headingMatch (line : List Char) : Option (Nat × List Char) :=
  let n := countHashes line
  if 1 ≤ n ∧ n ≤ 6 then
    match line.drop n with
    | c :: rest => if isPySpace c then some (n, lstrip (c :: rest)) else none
    | [] => none
  else none

/-- The three bullet marker characters of `^\s*[-*+]\s+(.*)$` (line 364). -/
def isBulletMarker (c : Char) : Bool := c == '-' || c == '*' || c == '+'

/-- Embedding of `re.match(r"^\s*[-*+]\s+(.*)$", line)` (line 364):
optional leading whitespace, a bullet marker, at least one whitespace
character, then the item text with leading whitespace stripped. -/
def bulletMatch (line : List Char) : Option (List Char) :=
  match lstrip line with
  | m :: rest =>
    if isBulletMarker m then
      match rest with
      | c :: _ => if isPySpace c then some (lstrip rest) else none
      | [] => none
    else none
  | [] => none

/-- Classification of one rstripped line the length guard has passed
(lines 346-385): heading (title truncated to 200 characters, size capped
at level 3), bullet, blank, or paragraph. -/
def classifyLine (line : List Char) : Block :=
  match headingMatch line with
  | some (n, title) => .heading (headingSize n) (title.take 200)
  | none =>
    match bulletMatch line with
    | some t => .bullet t
    | none => if lstrip line = [] then .blank else .para line

/-- Per-line view of the loop body (lines 339-385): `rstrip` the raw
line, test the 10,000-character guard, else classify.  `none` marks a
line the guard rejects; in the full pipeline (`processLines`) that
branch does not skip but aborts the conversion, because the
skip-warning's `_log_warning` raises `NameError` on the undefined
`HAS_STREAMLIT` (lines 186, 343). -/
def renderLine (raw : List Char) : Option Block :=
  let line := rstrip raw
  if 10000 < line.length then none else some (classifyLine line)

/-- Whether every raw line passes the 10,000-character guard (measured
after `rstrip`, line 339). -/
def linesOk (lines : List (List Char)) : Bool :=
  lines.all (fun l => decide ((rstrip l).length ≤ 10000))

/-- Message of Python's `NameError` for the undefined `HAS_STREAMLIT`
that every `_log_warning`/`_log_error` call raises (lines 184-196;
`HAS_STREAMLIT` is assigned nowhere in the repository). -/
def nameErrMsg : List Char := "name 'HAS_STREAMLIT' is not defined".toList

/-- Message prefix of `ValueError(f"Failed to process text encoding: {e}")`
(line 227). -/
def encFailPre : List Char := "Failed to process text encoding: ".toList

/-- Message prefix of
`RuntimeError(f"Failed to process markdown content: {e}")` (line 392). -/
def mdFailPre : List Char := "Failed to process markdown content: ".toList

/-- Error signals `md_to_pdf` can raise: `ValueError` and `RuntimeError`
(docstring lines 171-173), and the uncaught `NameError` that escapes
when `_log_warning` is reached outside any enclosing handler
(line 208). -/
inductive MdError
  | valueError (msg : List Char)
  | runtimeError (msg : List Char)
  | nameError (msg : List Char)
deriving DecidableEq

/-- Embedding of the line loop of `md_to_pdf` (lines 337-392).  A line
whose rstripped length exceeds 10,000 characters does not get skipped:
the skip-warning at line 343 raises `NameError` (undefined
`HAS_STREAMLIT`), the per-line handler at line 388 calls `_log_warning`
again and raises once more, and line 392 converts that into a
`RuntimeError` that aborts the whole conversion.  Every surviving line
is classified. -/
def processLines : List (List Char) → Except MdError (List Block)
  | [] => .ok []
  | raw :: rest =>
    if 10000 < (rstrip raw).length then
      .error (.runtimeError (mdFailPre ++ nameErrMsg))
    else
      match processLines rest with
      | .ok blocks => .ok (classifyLine (rstrip raw) :: blocks)
      | .error e => .error e

/-- Block sequence a list of raw lines yields when every line passes the
guard. -/
def blocksOf (lines : List (List Char)) : List Block :=
  lines.map (fun raw => classifyLine (rstrip raw))

/-- Block sequence of a whole markdown string whose lines all pass the
guard. -/
def docBlocks (s : List Char) : List Block := blocksOf (splitlines s)

/-- State of the UTF-8 decoder model: output so far, number of
continuation bytes still needed, accumulated code point, the allowed
range of the next continuation byte, and whether any invalid sequence
was encountered (`err` is set exactly when the strict decoder would have
raised `UnicodeDecodeError`). -/
structure U8St where
  out : List Char
  need : Nat
  acc : Nat
  lo : Nat
  hi : Nat
  err : Bool
deriving DecidableEq

/-- Handling of a byte in initial position by Python's UTF-8 decoder with
`errors="replace"` (model of the external codec invoked at lines 206-210):
ASCII passes through, C0-C1 and F5-FF are invalid starts replaced by
U+FFFD, and multi-byte leads constrain their first continuation byte so
that overlong forms and surrogates are rejected. -/
def u8Init (st : U8St) (b : Nat) : U8St :=
  if b ≤ 0x7F then { st with out := st.out ++ [Char.ofNat b], need := 0 }
  else if b ≤ 0xC1 then
    { st with out := st.out ++ [Char.ofNat 0xFFFD], need := 0, err := true }
  else if b ≤ 0xDF then { st with need := 1, acc := b - 0xC0, lo := 0x80, hi := 0xBF }
  else if b = 0xE0 then { st with need := 2, acc := 0, lo := 0xA0, hi := 0xBF }
  else if b = 0xED then { st with need := 2, acc := 13, lo := 0x80, hi := 0x9F }
  else if b ≤ 0xEF then { st with need := 2, acc := b - 0xE0, lo := 0x80, hi := 0xBF }
  else if b = 0xF0 then { st with need := 3, acc := 0, lo := 0x90, hi := 0xBF }
  else if b ≤ 0xF3 then { st with need := 3, acc := b - 0xF0, lo := 0x80, hi := 0xBF }
  else if b = 0xF4 then { st with need := 3, acc := 4, lo := 0x80, hi := 0x8F }
  else { st with out := st.out ++ [Char.ofNat 0xFFFD], need := 0, err := true }

/-- One byte of the UTF-8 decoder model: continuation bytes in range
extend the pending code point; an out-of-range byte replaces the pending
sequence with U+FFFD and is reprocessed as an initial byte. -/
def u8Step (st : U8St) (b : Nat) : U8St :=
  if st.need = 0 then u8Init st b
  else if st.lo ≤ b ∧ b ≤ st.hi then
    let acc2 := st.acc * 64 + (b - 0x80)
    if st.need = 1 then { st with out := st.out ++ [Char.ofNat acc2], need := 0 }
    else { st with need := st.need - 1, acc := acc2, lo := 0x80, hi := 0xBF }
  else
    u8Init { st with out := st.out ++ [Char.ofNat 0xFFFD], need := 0, err := true } b

/-- Model of `md.decode("utf-8", errors="replace")` (external Python
codec, line 210): decode bytes, emitting one U+FFFD per invalid or
truncated sequence.  On inputs where `utf8Errors` is `false` this
coincides with the strict `md.decode("utf-8")` of line 206. -/
def decodeUtf8Replace (bs : List Nat) : List Char :=
  let st := bs.foldl u8Step
    { out := [], need := 0, acc := 0, lo := 0, hi := 0, err := false }
  if st.need = 0 then st.out else st.out ++ [Char.ofNat 0xFFFD]

/-- Whether the strict `md.decode("utf-8")` at line 206 raises
`UnicodeDecodeError`: true exactly when the byte string contains an
invalid or truncated UTF-8 sequence. -/
def utf8Errors (bs : List Nat) : Bool :=
  let st := bs.foldl u8Step
    { out := [], need := 0, acc := 0, lo := 0, hi := 0, err := false }
  st.err || !(st.need == 0)

/-- Model of `md.encode("latin-1", "ignore").decode("latin-1")`
(line 223): characters with no latin-1 representation are dropped. -/
def latin1Filter (s : List Char) : List Char := s.filter (fun c => c.toNat ≤ 255)

/-- Latin-1 bytes of a latin-1 text, used by the serializer model. -/
def textBytes (s : List Char) : List Nat := s.map Char.toNat

/-- The PDF magic header bytes `%PDF` (spec §8: "the target format's
magic header"). -/
def pdfMagic : List Nat := [37, 80, 68, 70]

/-- Model of how the external FPDF library embeds one rendered block into
the document byte stream: each block contributes its latin-1 text (plus a
tag and the chosen font size for headings and a glyph tag for bullets). -/
def encodeBlock : Block → List Nat
  | .heading size title => 72 :: size :: (textBytes title ++ [10])
  | .bullet t => 66 :: (textBytes t ++ [10])
  | .blank => [10]
  | .para t => textBytes t ++ [10]

/-- Model of the byte sequence `pdf.output(dest="S")` of the external
FPDF library produces for a finished canvas: the `%PDF` magic header and
version line, the serialized blocks, and a trailer. -/
def pdfBytes (blocks : List Block) : List Nat :=
  pdfMagic ++ textBytes "-1.3\n".toList ++ (blocks.map encodeBlock).flatten ++
    textBytes "\n%%EOF\n".toList

/-- Input to `md_to_pdf`: `str` or `bytes`/`bytearray` (an absent value
is `Option.none` at the call boundary). -/
inductive MdInput
  | str (s : List Char)
  | bytes (b : List Nat)
deriving DecidableEq

/-- Message of `ValueError("Input markdown content cannot be None")`
(line 200). -/
def noneMsg : List Char := "Input markdown content cannot be None".toList

/-- Message of `ValueError("Input markdown content cannot be empty")`
(line 204). -/
def emptyMsg : List Char := "Input markdown content cannot be empty".toList

/-- Message of the whitespace-only `ValueError` (line 218). -/
def wsMsg : List Char :=
  "Input markdown content cannot be empty or whitespace-only".toList

/-- Message prefix of `RuntimeError(f"Failed to generate PDF output: {e}")`
(line 410). -/
def serFailPre : List Char := "Failed to generate PDF output: ".toList

/-- Stage 1 of `md_to_pdf` for a present input (lines 202-215): empty
bytes are rejected; for bytes that are not valid UTF-8 the strict decode
fails and the warning call at line 208 raises an uncaught `NameError`
(undefined `HAS_STREAMLIT`) before the replacement decode is reached;
valid bytes decode (where the replacement decoder agrees with the strict
one); strings pass through. -/
def normalizeInput : MdInput → Except MdError (List Char)
  | .bytes b =>
    if b = [] then .error (.valueError emptyMsg)
    else if utf8Errors b then .error (.nameError nameErrMsg)
    else .ok (decodeUtf8Replace b)
  | .str s => .ok s

/-- Stage 5 of `md_to_pdf` (lines 395-410): produce the final byte
sequence from the finished canvas, re-raising a failure as
`RuntimeError`. -/
def serializeStage (ser : List Block → Except (List Char) (List Nat))
    (blocks : List Block) : Except MdError (List Nat) :=
  match ser blocks with
  | .ok bs => .ok bs
  | .error e => .error (.runtimeError (serFailPre ++ e))

/-- Stages 1(rest)-5 of `md_to_pdf` on a decoded string (lines 217-410):
reject whitespace-only content (line 218); transcode to latin-1 dropping
unsupported characters (line 223) — if any character was dropped, the
warning at line 225 raises `NameError`, caught at line 226 and re-raised
as `ValueError` (line 227); process the lines (`processLines`, which a
guard-tripping line aborts); serialize the canvas, a serialization
failure being re-raised as `RuntimeError` (lines 409-410).  The
serializer is a parameter so that its failure can be exercised; the
deployed one is `pdfSerialize`. -/
def convertStr (ser : List Block → Except (List Char) (List Nat))
    (s : List Char) : Except MdError (List Nat) :=
  if pyStrip s = [] then .error (.valueError wsMsg)
  else if (latin1Filter s).length < s.length then
    .error (.valueError (encFailPre ++ nameErrMsg))
  else
    match processLines (splitlines (latin1Filter s)) with
    | .error e => .error e
    | .ok blocks => serializeStage ser blocks

/-- Embedding of `md_to_pdf` (lines 161-410): `None` raises `ValueError`
(line 200); otherwise the input is normalized and converted. -/
def md_to_pdf (ser : List Block → Except (List Char) (List Nat)) :
    Option MdInput → Except MdError (List Nat)
  | none => .error (.valueError noneMsg)
  | some inp =>
    match normalizeInput inp with
    | .error e => .error e
    | .ok s => convertStr ser s

/-- The deployed serializer: FPDF's `output(dest="S")` succeeds and
returns the canvas bytes (model of the external library's normal
behaviour at line 396). -/
def pdfSerialize (blocks : List Block) : Except (List Char) (List Nat) :=
  .ok (pdfBytes blocks)

/-- A serializer whose byte-sequence production always fails, exercising
the `except` branch at lines 409-410. -/
def failingSer : List Block → Except (List Char) (List Nat) :=
  fun _ => .error "serializer failure".toList

/-- Whether `needle` occurs contiguously inside `hay`. -/
def containsBytes (needle hay : List Nat) : Bool :=
  needle.isPrefixOf hay ||
    match hay with
    | [] => false
    | _ :: t => containsBytes needle t

/-- Modelled from the spec: the placeholder string the lenient mode
substitutes for absent content (spec §4.2 step 1); its exact wording is
left open by the spec. -/
def placeholderText : List Char := "(no content provided)".toList

/-- Modelled from the spec: the "fixed, hard-coded minimal document body"
the lenient mode falls back to under total internal failure (spec §6), a
minimal one-page empty document. -/
def fallbackDoc : List Nat := pdfBytes []

/-- Modelled from the spec: input substitution of the lenient mode.  The
lenient-mode revision of the converter is not under `src/` (the spec's
§9 notes the repository's several revisions collapse into one
implementation with strict/lenient mode flags); per spec §4.2 step 1 it
substitutes a placeholder string for absent content (`None`, empty, or
whitespace-only input) instead of raising. -/
def lenientInput : Option MdInput → MdInput
  | none => .str placeholderText
  | some (.bytes b) =>
    if b = [] then .str placeholderText
    else if pyStrip (decodeUtf8Replace b) = [] then .str placeholderText
    else .bytes b
  | some (.str s) => if pyStrip s = [] then .str placeholderText else .str s

/-- Modelled from the spec: the lenient-mode converter (spec §4.2), not
under `src/`.  It substitutes a placeholder for absent content, runs the
same pipeline as `md_to_pdf`, and absorbs any remaining internal failure
into the minimal fallback document, so it is a total function to bytes
(spec §7 propagation policy). -/
def md_to_pdf_lenient (ser : List Block → Except (List Char) (List Nat))
    (md : Option MdInput) : List Nat :=
  match md_to_pdf ser (some (lenientInput md)) with
  | .ok bs => bs
  | .error _ => fallbackDoc

/-- One content element of a streamed item (`content[0].text`). -/
structure ContentPart where
  text : List Char
deriving DecidableEq

/-- A streamed output item or delta: carries a (possibly empty) content
list. -/
structure RespItem where
  content : List ContentPart
deriving DecidableEq

/-- The event variants `generate_due_diligence_report_stream` dispatches
on (lines 125-144, spec §3 GenerationEvent): a created response carrying
an output list, an added item, a delta, or any other event with no
extractable text. -/
inductive GenEvent
  | responseCreated (output : List RespItem)
  | itemAdded (item : RespItem)
  | itemDelta (delta : RespItem)
  | other
deriving DecidableEq

/-- Text extraction per event (lines 126-144), first match wins: for a
created response the last output item's first content text (when the
output list and that content are non-empty), else an added item's first
content text, else a delta's first content text, else nothing. -/
def extractText : GenEvent → Option (List Char)
  | .responseCreated out =>
    match out.getLast? with
    | some item =>
      match item.content with
      | p :: _ => some p.text
      | [] => none
    | none => none
  | .itemAdded item =>
    match item.content with
    | p :: _ => some p.text
    | [] => none
  | .itemDelta d =>
    match d.content with
    | p :: _ => some p.text
    | [] => none
  | .other => none

/-- A failure the underlying stream can raise while being consumed:
an `OpenAIError` or any other exception (lines 154-157). -/
inductive StreamFailure
  | openAIError (msg : List Char)
  | unexpected (msg : List Char)
deriving DecidableEq

/-- One step of the event source: a delivered event, or an exception
raised by the source (which ends the iteration). -/
inductive StreamStep
  | ev (e : GenEvent)
  | fail (f : StreamFailure)
deriving DecidableEq

/-- The error label of `f"❌ **OpenAI error:** {e}"` (line 155). -/
def openaiErrLabel : List Char := "❌ **OpenAI error:** ".toList

/-- The error label of `f"⚠️ **Unexpected error:** {e}"` (line 157). -/
def unexpectedErrLabel : List Char := "⚠️ **Unexpected error:** ".toList

/-- The chunk-accumulation step `if text: chunks.append(text)`
(lines 144-145): a non-empty extracted fragment is appended, anything
else leaves the chunks unchanged. -/
def newChunks (chunks : List (List Char)) : Option (List Char) → List (List Char)
  | some t => if t = [] then chunks else chunks ++ [t]
  | none => chunks

/-- Whether the live-preview branch (lines 148-150) executes on this
event: a non-empty fragment is appended and the new chunk count is a
multiple of 20 (`len(chunks) % 20 == 0` after the append).  When it
executes, assigning `st.session_state` from the worker thread and
calling `st.experimental_rerun()` (removed in every Streamlit new enough
for the `st.navigation`/`st.Page` entry point, and an exception-raising
rerun mechanism in older ones) raises an exception. -/
def previewFires (chunks : List (List Char)) : Option (List Char) → Bool
  | some t => !t.isEmpty && (chunks.length + 1) % 20 == 0
  | none => false

/-- The consumption loop of `generate_due_diligence_report_stream`
(lines 125-157): each delivered event updates the chunks via `newChunks`,
except that when the live-preview branch fires its raised exception is
caught by the broad handler at line 156 and the function returns the
`⚠️`-labelled string (the parameter `pm` is the version-dependent message
of that exception); a failure raised by the source ends the loop with
the correspondingly labelled error string (lines 154-157); a finished
source joins the chunks (line 152). -/
def runStream (pm : List Char) : List StreamStep → List (List Char) → List Char
  | [], chunks => chunks.flatten
  | .fail (.openAIError m) :: _, _ => openaiErrLabel ++ m
  | .fail (.unexpected m) :: _, _ => unexpectedErrLabel ++ m
  | .ev e :: rest, chunks =>
    if previewFires chunks (extractText e) then unexpectedErrLabel ++ pm
    else runStream pm rest (newChunks chunks (extractText e))

/-- Embedding of `generate_due_diligence_report_stream` (lines 97-157)
as a function of the event source, parameterized by the message `pm` of
the exception the external live-preview branch raises when it fires. -/
def generate_due_diligence_report_stream (pm : List Char)
    (steps : List StreamStep) : List Char :=
  runStream pm steps []

/-- The non-empty fragments a list of events yields, in arrival order
(what the chunks list accumulates while the preview stays quiet). -/
def goodFrags (evs : List GenEvent) : List (List Char) :=
  (evs.filterMap extractText).filter (fun t => !t.isEmpty)

/-- Model of `pdf.get_string_width` (external FPDF, line 271): for the
core fonts the width of a string is the sum of its characters' widths,
given by a per-character width table `cw`. -/
def strWidth (cw : Char → ℚ) (s : List Char) : ℚ := (s.map cw).sum

/-- One character step of the `split_long_word` loop (lines 270-276):
if the current chunk extended by the character would exceed the column
width and the chunk is non-empty, flush the chunk and start a new one,
else extend the chunk. -/
def slwStep (cw : Char → ℚ) (col : ℚ) (pc : List (List Char) × List Char)
    (ch : Char) : List (List Char) × List Char :=
  if col < strWidth cw (pc.2 ++ [ch]) ∧ pc.2 ≠ [] then (pc.1 ++ [pc.2], [ch])
  else (pc.1, pc.2 ++ [ch])

/-- Final flush of the `split_long_word` loop (lines 277-278). -/
def slwFinish (pc : List (List Char) × List Char) : List (List Char) :=
  if pc.2 ≠ [] then pc.1 ++ [pc.2] else pc.1

/-- Embedding of `split_long_word` (lines 263-285): empty words or
non-positive column widths short-circuit (line 265-266), otherwise the
word is scanned character by character into chunks that fit the column,
returning `[word]` if no parts were produced (line 285). -/
def split_long_word (cw : Char → ℚ) (word : List Char) (col : ℚ) :
    List (List Char) :=
  if word = [] then []
  else if col ≤ 0 then [word]
  else
    let parts := slwFinish (word.foldl (slwStep cw col) ([], []))
    if parts = [] then [word] else parts

/-- The token normalization of `write_wrapped` (lines 300-314): split the
text on whitespace; a token wider than the column is replaced by its
`split_long_word` parts, any other token is kept as is. -/
def safe_parts (cw : Char → ℚ) (col : ℚ) (text : List Char) :
    List (List Char) :=
  (pySplit text).foldl
    (fun acc token =>
      if col < strWidth cw token then acc ++ split_long_word cw token col
      else acc ++ [token]) []

/-- A width table in which every character fits inside the column, as is
the case for the deployed FPDF core-font metrics against the printable
column width of at least 10 units (line 294). -/
def charFits (cw : Char → ℚ) (col : ℚ) : Prop := ∀ c, cw c ≤ col

/-- A concrete width table assigning every character width 1, used to
instantiate the layout theorems. -/
def exampleCw : Char → ℚ := fun _ => 1

theorem dropWhile_append_of_ne {α : Type} {p : α → Bool} {a : List α} (b : List α)
    (h : a.dropWhile p ≠ []) : (a ++ b).dropWhile p = a.dropWhile p ++ b := by
  rw [List.dropWhile_append, if_neg]
  simp [List.isEmpty_iff, h]

theorem rstrip_append (xs ys : List Char) (h : rstrip ys ≠ []) :
    rstrip (xs ++ ys) = xs ++ rstrip ys := by
  have h2 : ys.reverse.dropWhile isPySpace ≠ [] := by
    intro hh
    exact h (by simp [rstrip, hh])
  simp [rstrip, List.reverse_append, dropWhile_append_of_ne _ h2]

theorem rstrip_append_space (xs : List Char) (c : Char) (h : isPySpace c = true) :
    rstrip (xs ++ [c]) = rstrip xs := by
  simp [rstrip, List.reverse_append, List.dropWhile_cons, h]

theorem dropWhile_replicate_of_not {α : Type} {p : α → Bool} (n : Nat) (c : α)
    (h : p c = false) : List.dropWhile p (List.replicate n c) = List.replicate n c := by
  cases n with
  | zero => rfl
  | succ m => simp [List.replicate_succ, List.dropWhile_cons, h]

theorem rstrip_replicate (n : Nat) (c : Char) (h : isPySpace c = false) :
    rstrip (List.replicate n c) = List.replicate n c := by
  simp [rstrip, List.reverse_replicate, dropWhile_replicate_of_not n c h]

theorem countHashes_replicate (n : Nat) (c : Char) (rest : List Char) (h : c ≠ '#') :
    countHashes (List.replicate n '#' ++ c :: rest) = n := by
  induction n with
  | zero => simp [countHashes, h]
  | succ m ih => simp [List.replicate_succ, countHashes, ih]

theorem isPySpace_sp : isPySpace ' ' = true := by decide

theorem isPySpace_dash : isPySpace '-' = false := by decide

theorem headingMatch_pos (n : Nat) (title : List Char) (h1 : 1 ≤ n) (h6 : n ≤ 6) :
    headingMatch (List.replicate n '#' ++ ' ' :: title) = some (n, lstrip title) := by
  unfold headingMatch
  rw [countHashes_replicate n ' ' title (by decide)]
  rw [if_pos ⟨h1, h6⟩]
  rw [List.drop_left' (List.length_replicate n '#')]
  simp [lstrip, List.dropWhile_cons, isPySpace_sp]

theorem headingMatch_hash_run (n : Nat) (c : Char) (rest : List Char) (h1 : 1 ≤ n)
    (hns : isPySpace c = false) (hc : c ≠ '#') :
    headingMatch (List.replicate n '#' ++ c :: rest) = none := by
  unfold headingMatch
  rw [countHashes_replicate n c rest hc]
  by_cases h6 : n ≤ 6
  · rw [if_pos ⟨h1, h6⟩, List.drop_left' (List.length_replicate n '#')]
    simp [hns]
  · rw [if_neg (by omega)]

theorem headingMatch_space (c : Char) (l : List Char) (h : isPySpace c = true) :
    headingMatch (c :: l) = none := by
  have hc : c ≠ '#' := by
    intro he
    rw [he] at h
    exact absurd h (by decide)
  unfold headingMatch
  simp [countHashes, hc]

theorem bulletMatch_ws (ws t : List Char) (h : ws.all isPySpace = true) :
    bulletMatch (ws ++ '-' :: ' ' :: t) = some (lstrip t) := by
  unfold bulletMatch
  have hd : lstrip (ws ++ '-' :: ' ' :: t) = '-' :: ' ' :: t := by
    have : List.dropWhile isPySpace ws = [] := by
      induction ws with
      | nil => rfl
      | cons c cs ih =>
        simp only [List.all_cons, Bool.and_eq_true] at h
        simp [List.dropWhile_cons, h.1, ih h.2]
    simp [lstrip, List.dropWhile_append, this, List.dropWhile_cons, isPySpace_dash]
  rw [hd]
  simp [isBulletMarker, lstrip, List.dropWhile_cons, isPySpace_sp]

theorem slwFinish_flatten (pc : List (List Char) × List Char) :
    (slwFinish pc).flatten = pc.1.flatten ++ pc.2 := by
  by_cases h : pc.2 = [] <;> simp [slwFinish, h]

theorem slw_fold_concat (cw : Char → ℚ) (col : ℚ) (word : List Char) :
    ∀ (p : List (List Char)) (c : List Char),
      (word.foldl (slwStep cw col) (p, c)).1.flatten ++
        (word.foldl (slwStep cw col) (p, c)).2 = p.flatten ++ c ++ word := by
  induction word with
  | nil => intro p c; simp
  | cons ch rest ih =>
    intro p c
    simp only [List.foldl_cons]
    by_cases h : col < strWidth cw (c ++ [ch]) ∧ c ≠ []
    · rw [show slwStep cw col (p, c) ch = (p ++ [c], [ch]) from by simp [slwStep, h]]
      rw [ih]
      simp
    · rw [show slwStep cw col (p, c) ch = (p, c ++ [ch]) from by simp [slwStep, h]]
      rw [ih]
      simp

theorem split_long_word_flatten (cw : Char → ℚ) (word : List Char) (col : ℚ) :
    (split_long_word cw word col).flatten = word := by
  by_cases hw : word = []
  · simp [split_long_word, hw]
  · by_cases hc : col ≤ 0
    · simp [split_long_word, hw, hc]
    · have hkey : (slwFinish (word.foldl (slwStep cw col) ([], []))).flatten = word := by
        rw [slwFinish_flatten, slw_fold_concat]
        simp
      by_cases hp : slwFinish (word.foldl (slwStep cw col) ([], [])) = []
      · simp [split_long_word, hw, hc, hp]
      · simp [split_long_word, hw, hc, hp, hkey]

theorem strWidth_single (cw : Char → ℚ) (ch : Char) : strWidth cw [ch] = cw ch := by
  simp [strWidth]

theorem slw_fold_bounds (cw : Char → ℚ) (col : ℚ) (hcw : ∀ ch, cw ch ≤ col)
    (word : List Char) :
    ∀ (p : List (List Char)) (c : List Char),
      (∀ q ∈ p, strWidth cw q ≤ col) → (c = [] ∨ strWidth cw c ≤ col) →
      (∀ q ∈ (word.foldl (slwStep cw col) (p, c)).1, strWidth cw q ≤ col) ∧
        ((word.foldl (slwStep cw col) (p, c)).2 = [] ∨
          strWidth cw (word.foldl (slwStep cw col) (p, c)).2 ≤ col) := by
  induction word with
  | nil => intro p c hp hc; exact ⟨hp, hc⟩
  | cons ch rest ih =>
    intro p c hp hc
    simp only [List.foldl_cons]
    by_cases h : col < strWidth cw (c ++ [ch]) ∧ c ≠ []
    · rw [show slwStep cw col (p, c) ch = (p ++ [c], [ch]) from by simp [slwStep, h]]
      apply ih
      · intro q hq
        rcases List.mem_append.mp hq with hql | hqr
        · exact hp q hql
        · rw [List.mem_singleton.mp hqr]
          exact (hc.resolve_left h.2)
      · right
        rw [strWidth_single]
        exact hcw ch
    · rw [show slwStep cw col (p, c) ch = (p, c ++ [ch]) from by simp [slwStep, h]]
      apply ih _ _ hp
      right
      rcases not_and_or.mp h with hw | he2
      · exact le_of_not_lt hw
      · rw [not_not.mp he2]
        simpa [strWidth] using hcw ch

theorem split_long_word_bounds (cw : Char → ℚ) (word : List Char) (col : ℚ)
    (hcol : 0 < col) (hcw : ∀ ch, cw ch ≤ col) :
    ∀ q ∈ split_long_word cw word col, strWidth cw q ≤ col := by
  by_cases hw : word = []
  · simp [split_long_word, hw]
  · have hc : ¬ col ≤ 0 := not_le.mpr hcol
    have hkey : (slwFinish (word.foldl (slwStep cw col) ([], []))).flatten = word := by
      rw [slwFinish_flatten, slw_fold_concat]
      simp
    have hp : slwFinish (word.foldl (slwStep cw col) ([], [])) ≠ [] := by
      intro hh
      rw [hh] at hkey
      exact hw (by simpa using hkey.symm)
    intro q hq
    rw [show split_long_word cw word col
        = slwFinish (word.foldl (slwStep cw col) ([], [])) from by
      simp [split_long_word, hw, hc, hp]] at hq
    have hb := slw_fold_bounds cw col hcw word [] [] (by simp) (Or.inl rfl)
    rcases hb with ⟨hb1, hb2⟩
    unfold slwFinish at hq
    by_cases h2 : (word.foldl (slwStep cw col) ([], [])).2 = []
    · rw [if_neg (by simp [h2])] at hq
      exact hb1 q hq
    · rw [if_pos h2] at hq
      rcases List.mem_append.mp hq with hql | hqr
      · exact hb1 q hql
      · rw [List.mem_singleton.mp hqr]
        exact hb2.resolve_left h2

theorem split_long_word_two (cw : Char → ℚ) (word : List Char) (col : ℚ)
    (hcol : 0 < col) (hcw : ∀ ch, cw ch ≤ col) (hwide : col < strWidth cw word) :
    2 ≤ (split_long_word cw word col).length := by
  have hflat := split_long_word_flatten cw word col
  have hb := split_long_word_bounds cw word col hcol hcw
  match hr : split_long_word cw word col with
  | [] =>
    rw [hr] at hflat
    rw [← hflat] at hwide
    simp [strWidth] at hwide
    exact absurd hcol (not_lt.mpr (le_of_lt hwide))
  | [q] =>
    rw [hr] at hflat hb
    have hq : strWidth cw q ≤ col := hb q (by simp)
    rw [show List.flatten [q] = q from by simp] at hflat
    rw [hflat] at hq
    exact absurd hwide (not_lt.mpr hq)
  | q1 :: q2 :: qs => simp

theorem safe_parts_bounds (cw : Char → ℚ) (col : ℚ) (text : List Char)
    (hcol : 0 < col) (hcw : ∀ ch, cw ch ≤ col) :
    ∀ q ∈ safe_parts cw col text, strWidth cw q ≤ col := by
  unfold safe_parts
  generalize pySplit text = toks
  have main : ∀ (ts : List (List Char)) (acc : List (List Char)),
      (∀ q ∈ acc, strWidth cw q ≤ col) →
      ∀ q ∈ ts.foldl (fun acc token =>
          if col < strWidth cw token then acc ++ split_long_word cw token col
          else acc ++ [token]) acc, strWidth cw q ≤ col := by
    intro ts
    induction ts with
    | nil => intro acc hacc; exact hacc
    | cons tok ts ih =>
      intro acc hacc
      simp only [List.foldl_cons]
      by_cases hw : col < strWidth cw tok
      · rw [if_pos hw]
        apply ih
        intro q hq
        rcases List.mem_append.mp hq with hql | hqr
        · exact hacc q hql
        · exact split_long_word_bounds cw tok col hcol hcw q hqr
      · rw [if_neg hw]
        apply ih
        intro q hq
        rcases List.mem_append.mp hq with hql | hqr
        · exact hacc q hql
        · rw [List.mem_singleton.mp hqr]
          exact le_of_not_lt hw
  exact main toks [] (by simp)

theorem goodFrags_cons_none (e : GenEvent) (evs : List GenEvent)
    (hx : extractText e = none) : goodFrags (e :: evs) = goodFrags evs := by
  simp [goodFrags, List.filterMap_cons, hx]

theorem goodFrags_cons_empty (e : GenEvent) (evs : List GenEvent)
    (hx : extractText e = some []) : goodFrags (e :: evs) = goodFrags evs := by
  simp [goodFrags, List.filterMap_cons, hx, List.filter_cons]

theorem goodFrags_cons_some (e : GenEvent) (evs : List GenEvent) (t : List Char)
    (hx : extractText e = some t) (ht : t ≠ []) :
    goodFrags (e :: evs) = t :: goodFrags evs := by
  simp only [goodFrags, List.filterMap_cons, hx, List.filter_cons]
  rw [if_pos (by simp [ht])]

theorem previewFires_quiet (chunks : List (List Char)) (t : List Char)
    (_ht : t ≠ []) (h : chunks.length + 1 < 20) :
    previewFires chunks (some t) = false := by
  have h1 : (chunks.length + 1) % 20 = chunks.length + 1 := Nat.mod_eq_of_lt h
  have h2 : ((chunks.length + 1) % 20 == 0) = false := by
    rw [h1]
    simp
  simp [previewFires, h2]

theorem runStream_events (pm : List Char) (evs : List GenEvent) :
    ∀ chunks : List (List Char),
      chunks.length + (goodFrags evs).length < 20 →
      runStream pm (evs.map StreamStep.ev) chunks =
        chunks.flatten ++ (goodFrags evs).flatten := by
  induction evs with
  | nil => intro chunks h; simp [runStream, goodFrags]
  | cons e evs ih =>
    intro chunks h
    rw [List.map_cons]
    rw [show runStream pm (StreamStep.ev e :: evs.map StreamStep.ev) chunks
        = if previewFires chunks (extractText e) then unexpectedErrLabel ++ pm
          else runStream pm (evs.map StreamStep.ev)
            (newChunks chunks (extractText e)) from rfl]
    cases hx : extractText e with
    | none =>
      rw [goodFrags_cons_none e evs hx] at h ⊢
      rw [show previewFires chunks none = false from rfl]
      rw [if_neg (by simp)]
      rw [show newChunks chunks none = chunks from rfl]
      exact ih chunks h
    | some t =>
      by_cases ht : t = []
      · subst ht
        rw [goodFrags_cons_empty e evs hx] at h ⊢
        rw [show previewFires chunks (some []) = false from rfl]
        rw [if_neg (by simp)]
        rw [show newChunks chunks (some []) = chunks from rfl]
        exact ih chunks h
      · rw [goodFrags_cons_some e evs t hx ht] at h ⊢
        rw [previewFires_quiet chunks t ht (by simp at h; omega)]
        rw [if_neg (by simp)]
        rw [show newChunks chunks (some t) = chunks ++ [t] from by
          simp [newChunks, ht]]
        rw [ih (chunks ++ [t]) (by simp at h ⊢; omega)]
        simp [List.flatten_append]

theorem runStream_openai (pm m : List Char) (rest : List StreamStep)
    (evs : List GenEvent) :
    ∀ chunks : List (List Char),
      chunks.length + (goodFrags evs).length < 20 →
      runStream pm (evs.map StreamStep.ev ++
        StreamStep.fail (.openAIError m) :: rest) chunks = openaiErrLabel ++ m := by
  induction evs with
  | nil => intro chunks h; rfl
  | cons e evs ih =>
    intro chunks h
    rw [List.map_cons, List.cons_append]
    rw [show runStream pm (StreamStep.ev e :: (evs.map StreamStep.ev ++
          StreamStep.fail (.openAIError m) :: rest)) chunks
        = if previewFires chunks (extractText e) then unexpectedErrLabel ++ pm
          else runStream pm (evs.map StreamStep.ev ++
            StreamStep.fail (.openAIError m) :: rest)
            (newChunks chunks (extractText e)) from rfl]
    cases hx : extractText e with
    | none =>
      rw [goodFrags_cons_none e evs hx] at h
      rw [show previewFires chunks none = false from rfl]
      rw [if_neg (by simp)]
      exact ih chunks h
    | some t =>
      by_cases ht : t = []
      · subst ht
        rw [goodFrags_cons_empty e evs hx] at h
        rw [show previewFires chunks (some []) = false from rfl]
        rw [if_neg (by simp)]
        exact ih chunks h
      · rw [goodFrags_cons_some e evs t hx ht] at h
        rw [previewFires_quiet chunks t ht (by simp at h; omega)]
        rw [if_neg (by simp)]
        rw [show newChunks chunks (some t) = chunks ++ [t] from by
          simp [newChunks, ht]]
        exact ih (chunks ++ [t]) (by simp at h ⊢; omega)

theorem runStream_unexpected (pm m : List Char) (rest : List StreamStep)
    (evs : List GenEvent) :
    ∀ chunks : List (List Char),
      chunks.length + (goodFrags evs).length < 20 →
      runStream pm (evs.map StreamStep.ev ++
        StreamStep.fail (.unexpected m) :: rest) chunks = unexpectedErrLabel ++ m := by
  induction evs with
  | nil => intro chunks h; rfl
  | cons e evs ih =>
    intro chunks h
    rw [List.map_cons, List.cons_append]
    rw [show runStream pm (StreamStep.ev e :: (evs.map StreamStep.ev ++
          StreamStep.fail (.unexpected m) :: rest)) chunks
        = if previewFires chunks (extractText e) then unexpectedErrLabel ++ pm
          else runStream pm (evs.map StreamStep.ev ++
            StreamStep.fail (.unexpected m) :: rest)
            (newChunks chunks (extractText e)) from rfl]
    cases hx : extractText e with
    | none =>
      rw [goodFrags_cons_none e evs hx] at h
      rw [show previewFires chunks none = false from rfl]
      rw [if_neg (by simp)]
      exact ih chunks h
    | some t =>
      by_cases ht : t = []
      · subst ht
        rw [goodFrags_cons_empty e evs hx] at h
        rw [show previewFires chunks (some []) = false from rfl]
        rw [if_neg (by simp)]
        exact ih chunks h
      · rw [goodFrags_cons_some e evs t hx ht] at h
        rw [previewFires_quiet chunks t ht (by simp at h; omega)]
        rw [if_neg (by simp)]
        rw [show newChunks chunks (some t) = chunks ++ [t] from by
          simp [newChunks, ht]]
        exact ih (chunks ++ [t]) (by simp at h ⊢; omega)

theorem renderLine_heading (n : Nat) (title : List Char) (h1 : 1 ≤ n) (h6 : n ≤ 6)
    (ht : rstrip title ≠ []) (hlen : n + 1 + (rstrip title).length ≤ 10000) :
    renderLine (List.replicate n '#' ++ ' ' :: title) =
      some (.heading (headingSize n) ((pyStrip title).take 200)) := by
  have hsp : rstrip (' ' :: title) = ' ' :: rstrip title := by
    have := rstrip_append [' '] title ht
    simpa using this
  have hline : rstrip (List.replicate n '#' ++ ' ' :: title) =
      List.replicate n '#' ++ ' ' :: rstrip title := by
    rw [rstrip_append _ _ (by rw [hsp]; simp), hsp]
  unfold renderLine
  rw [hline]
  rw [if_neg (by simp [List.length_append, List.length_replicate]; omega)]
  unfold classifyLine
  rw [headingMatch_pos n (rstrip title) h1 h6]
  rfl

theorem processLines_ok (lines : List (List Char)) (h : linesOk lines = true) :
    processLines lines = .ok (blocksOf lines) := by
  induction lines with
  | nil => rfl
  | cons raw rest ih =>
    unfold linesOk at h
    rw [List.all_cons, Bool.and_eq_true] at h
    have h1 : (rstrip raw).length ≤ 10000 := of_decide_eq_true h.1
    unfold processLines
    rw [if_neg (by omega)]
    rw [ih h.2]
    rfl

theorem splitlines_foldl_nobreak (cs : List Char)
    (h : ∀ c ∈ cs, isLineBreak c = false) :
    ∀ st : SplitLnSt, st.lastCR = false →
      cs.foldl splitlinesStep st =
        { lns := st.lns, cur := st.cur ++ cs, lastCR := false } := by
  induction cs with
  | nil =>
    intro st hst
    cases st
    simp_all
  | cons c cs ih =>
    intro st hst
    have hc : isLineBreak c = false := h c (by simp)
    rw [List.foldl_cons]
    rw [show splitlinesStep st c =
        { lns := st.lns, cur := st.cur ++ [c], lastCR := false } from by
      simp [splitlinesStep, hst, hc]]
    rw [ih (fun x hx => h x (by simp [hx])) _ rfl]
    simp

theorem splitlines_two_lines (xs ys : List Char)
    (hxs : ∀ c ∈ xs, isLineBreak c = false)
    (hys : ∀ c ∈ ys, isLineBreak c = false) (hne : ys ≠ []) :
    splitlines (xs ++ '\n' :: ys) = [xs, ys] := by
  unfold splitlines
  rw [List.foldl_append]
  rw [splitlines_foldl_nobreak xs hxs _ rfl]
  rw [List.foldl_cons]
  rw [show splitlinesStep
      { lns := ([] : List (List Char)), cur := [] ++ xs, lastCR := false } '\n' =
      { lns := [[] ++ xs], cur := [], lastCR := false } from by
    simp [splitlinesStep, isLineBreak]]
  rw [splitlines_foldl_nobreak ys hys _ rfl]
  simp [hne]

theorem splitlines_long_doc :
    splitlines (List.replicate 10001 'a' ++ '\n' :: "ok".toList) =
      [List.replicate 10001 'a', "ok".toList] :=
  splitlines_two_lines (List.replicate 10001 'a') "ok".toList
    (fun c hc => by rw [List.eq_of_mem_replicate hc]; decide)
    (by decide) (by decide)

theorem lstrip_replicate_a_append (n : Nat) (hn : 1 ≤ n) (x : List Char) :
    lstrip (List.replicate n 'a' ++ x) = List.replicate n 'a' ++ x := by
  obtain ⟨m, rfl⟩ : ∃ m, n = m + 1 := ⟨n - 1, by omega⟩
  rw [List.replicate_succ, List.cons_append]
  simp [lstrip, List.dropWhile_cons, show isPySpace 'a' = false from by decide]

/-- C2, as stated, is false on the code: when producing the final byte
sequence fails, `md_to_pdf` does not return a minimal fallback document
but raises `RuntimeError(f"Failed to generate PDF output: {e}")` (lines
409-410), shown here on the input `"hi"` with a failing serializer. -/
theorem c2_counterexample :
    md_to_pdf failingSer (some (.str "hi".toList)) =
      .error (.runtimeError (serFailPre ++ "serializer failure".toList)) := rfl

/-- C2 (amended): for an input that reaches the serialization stage (it
passes validation, drops no character in the transcode, and trips no
line-length guard), a failure in producing the final byte sequence makes
`md_to_pdf` raise a `RuntimeError` carrying the fixed message prefix to
the caller; no fallback document is produced. -/
theorem c2_amended (s msg : List Char)
    (ser : List Block → Except (List Char) (List Nat))
    (h1 : pyStrip s ≠ []) (hlat : latin1Filter s = s)
    (hok : linesOk (splitlines s) = true)
    (h2 : ser (docBlocks s) = .error msg) :
    md_to_pdf ser (some (.str s)) = .error (.runtimeError (serFailPre ++ msg)) := by
  rw [show md_to_pdf ser (some (.str s)) = convertStr ser s from rfl]
  unfold convertStr
  rw [if_neg h1, if_neg (by rw [hlat]; omega), hlat, processLines_ok _ hok]
  show serializeStage ser (blocksOf (splitlines s)) = _
  unfold serializeStage
  rw [show blocksOf (splitlines s) = docBlocks s from rfl, h2]

/-- Witness for C2 (amended) at the input `"hi"` with the failing
serializer. -/
theorem c2_amended_witness :
    pyStrip "hi".toList ≠ [] ∧
    latin1Filter "hi".toList = "hi".toList ∧
    linesOk (splitlines "hi".toList) = true ∧
    failingSer (docBlocks "hi".toList) = .error "serializer failure".toList ∧
    md_to_pdf failingSer (some (.str "hi".toList)) =
      .error (.runtimeError (serFailPre ++ "serializer failure".toList)) :=
  ⟨by decide, by decide, by decide, rfl,
   c2_amended "hi".toList "serializer failure".toList failingSer
     (by decide) (by decide) (by decide) rfl⟩

/-- C3: `convert(None)` raises the validation failure
`ValueError("Input markdown content cannot be None")` in strict mode
(line 200), while the spec-modelled lenient mode returns a non-empty
valid document (magic header present) containing the placeholder
content. -/
theorem c3_none_modes :
    md_to_pdf pdfSerialize none = .error (.valueError noneMsg)
  ∧ md_to_pdf_lenient pdfSerialize none ≠ []
  ∧ pdfMagic.isPrefixOf (md_to_pdf_lenient pdfSerialize none) = true
  ∧ containsBytes (textBytes placeholderText)
      (md_to_pdf_lenient pdfSerialize none) = true :=
  ⟨rfl, by decide, by decide, by decide⟩

/-- C4: the aggregator returns the concatenation, in arrival order, of
the non-empty extracted fragments only while fewer than 20 of them
accumulate — so the empty event sequence yields the empty string and the
`[ItemAdded "A", ItemDelta "B", Other, ItemAdded "C"]` sequence yields
`"ABC"` — but at the 20th accumulated fragment the live-preview branch
(lines 148-150) raises, the broad handler at line 156 catches it, and
the function returns the `⚠️`-labelled error string instead of the
concatenation, for every preview-exception message `pm`. -/
theorem c4_aggregate_concat :
    (∀ (pm : List Char) (evs : List GenEvent),
        (goodFrags evs).length < 20 →
        generate_due_diligence_report_stream pm (evs.map StreamStep.ev) =
          (goodFrags evs).flatten)
  ∧ (∀ pm : List Char, generate_due_diligence_report_stream pm [] = [])
  ∧ (∀ pm : List Char, generate_due_diligence_report_stream pm
      [.ev (.itemAdded ⟨[⟨"A".toList⟩]⟩), .ev (.itemDelta ⟨[⟨"B".toList⟩]⟩),
       .ev .other, .ev (.itemAdded ⟨[⟨"C".toList⟩]⟩)] = "ABC".toList)
  ∧ (∀ pm : List Char, generate_due_diligence_report_stream pm
      (List.replicate 20 (.ev (.itemAdded ⟨[⟨"A".toList⟩]⟩))) =
        unexpectedErrLabel ++ pm) := by
  refine ⟨?_, fun pm => rfl, fun pm => rfl, fun pm => rfl⟩
  intro pm evs h
  rw [show generate_due_diligence_report_stream pm (evs.map StreamStep.ev)
      = runStream pm (evs.map StreamStep.ev) [] from rfl]
  rw [runStream_events pm evs [] (by simpa using h)]
  simp

/-- Witness for C4 at a single `ItemAdded "A"` event. -/
theorem c4_aggregate_concat_witness :
    (goodFrags [GenEvent.itemAdded ⟨[⟨"A".toList⟩]⟩]).length < 20 ∧
    generate_due_diligence_report_stream "boom".toList
      ([GenEvent.itemAdded ⟨[⟨"A".toList⟩]⟩].map StreamStep.ev) =
      (goodFrags [GenEvent.itemAdded ⟨[⟨"A".toList⟩]⟩]).flatten :=
  ⟨by decide,
   c4_aggregate_concat.1 "boom".toList [GenEvent.itemAdded ⟨[⟨"A".toList⟩]⟩]
     (by decide)⟩

/-- C5: a service-level failure (an `OpenAIError`) yields the string
with the fixed `❌ **OpenAI error:** ` label and any other failure the
string with the fixed `⚠️ **Unexpected error:** ` label — the two labels
being distinguishable (neither is a prefix of the other) — but only when
fewer than 20 fragments accumulate before the failure: after the 20th
fragment the live-preview branch raises first and the function returns
the `⚠️`-labelled preview error, never surfacing the service failure. -/
theorem c5_error_labels :
    (∀ (pm m : List Char) (evs : List GenEvent) (rest : List StreamStep),
        (goodFrags evs).length < 20 →
        generate_due_diligence_report_stream pm (evs.map StreamStep.ev ++
          StreamStep.fail (.openAIError m) :: rest) = openaiErrLabel ++ m)
  ∧ (∀ (pm m : List Char) (evs : List GenEvent) (rest : List StreamStep),
        (goodFrags evs).length < 20 →
        generate_due_diligence_report_stream pm (evs.map StreamStep.ev ++
          StreamStep.fail (.unexpected m) :: rest) = unexpectedErrLabel ++ m)
  ∧ openaiErrLabel.isPrefixOf unexpectedErrLabel = false
  ∧ unexpectedErrLabel.isPrefixOf openaiErrLabel = false
  ∧ (∀ (pm m : List Char) (rest : List StreamStep),
        generate_due_diligence_report_stream pm
          (List.replicate 20 (.ev (.itemAdded ⟨[⟨"A".toList⟩]⟩)) ++
            StreamStep.fail (.openAIError m) :: rest) =
          unexpectedErrLabel ++ pm) :=
  ⟨fun pm m evs rest h => runStream_openai pm m rest evs [] (by simpa using h),
   fun pm m evs rest h => runStream_unexpected pm m rest evs [] (by simpa using h),
   by decide, by decide,
   fun pm m rest => rfl⟩

/-- Witness for C5 at an `OpenAIError` with no preceding events. -/
theorem c5_error_labels_witness :
    (goodFrags []).length < 20 ∧
    generate_due_diligence_report_stream "boom".toList
      (([] : List GenEvent).map StreamStep.ev ++
        StreamStep.fail (.openAIError "down".toList) :: []) =
      openaiErrLabel ++ "down".toList :=
  ⟨by decide,
   c5_error_labels.1 "boom".toList "down".toList [] [] (by decide)⟩

/-- C6: under the deployed width regime (every character fits in the
column, the column is positive), a token measuring wider than the column
is split into at least 2 sub-tokens, each fitting within the column
width, and every token `write_wrapped` hands to the canvas fits within
the column, so no written line overflows it. -/
theorem c6_split_fits (cw : Char → ℚ) (col : ℚ) (word text : List Char)
    (hcol : 0 < col) (hcw : charFits cw col) (hwide : col < strWidth cw word) :
    2 ≤ (split_long_word cw word col).length
  ∧ (∀ q ∈ split_long_word cw word col, strWidth cw q ≤ col)
  ∧ (∀ q ∈ safe_parts cw col text, strWidth cw q ≤ col) :=
  ⟨split_long_word_two cw word col hcol hcw hwide,
   split_long_word_bounds cw word col hcol hcw,
   safe_parts_bounds cw col text hcol hcw⟩

/-- Witness for C6 at the unit-width table, column width 2 and the
five-character word `"abcde"`. -/
theorem c6_split_fits_witness :
    (0 : ℚ) < 2 ∧ charFits exampleCw 2 ∧
    (2 : ℚ) < strWidth exampleCw "abcde".toList ∧
    2 ≤ (split_long_word exampleCw "abcde".toList 2).length :=
  ⟨by norm_num, fun c => by norm_num [exampleCw],
   by norm_num [strWidth, exampleCw],
   (c6_split_fits exampleCw 2 "abcde".toList "hello".toList (by norm_num)
     (fun c => by norm_num [exampleCw]) (by norm_num [strWidth, exampleCw])).1⟩

/-- C7: a line of one to six `#` markers, whitespace, and a title always
classifies and renders as a heading block, and marker depths 4-6 render
at the same visual size as depth 3, the only three distinct sizes being
16, 14 and 12. -/
theorem c7_heading_sizes :
    (∀ (n : Nat) (title : List Char), 1 ≤ n → n ≤ 6 → rstrip title ≠ [] →
        n + 1 + (rstrip title).length ≤ 10000 →
        renderLine (List.replicate n '#' ++ ' ' :: title) =
          some (.heading (headingSize n) ((pyStrip title).take 200)))
  ∧ headingSize 4 = headingSize 3 ∧ headingSize 5 = headingSize 3
  ∧ headingSize 6 = headingSize 3
  ∧ headingSize 1 ≠ headingSize 2 ∧ headingSize 1 ≠ headingSize 3
  ∧ headingSize 2 ≠ headingSize 3 :=
  ⟨renderLine_heading, by decide, by decide, by decide, by decide, by decide,
   by decide⟩

/-- Witness for C7 at depth 4 and title `"Hi"` (the line `"#### Hi"`). -/
theorem c7_heading_sizes_witness :
    1 ≤ 4 ∧ 4 ≤ 6 ∧ rstrip "Hi".toList ≠ [] ∧
    4 + 1 + (rstrip "Hi".toList).length ≤ 10000 ∧
    renderLine (List.replicate 4 '#' ++ ' ' :: "Hi".toList) =
      some (.heading (headingSize 4) ((pyStrip "Hi".toList).take 200)) :=
  ⟨by decide, by decide, by decide, by decide,
   c7_heading_sizes.1 4 "Hi".toList (by decide) (by decide) (by decide)
     (by decide)⟩

/-- C8's failing input evaluated: a markdown document whose first line
is 10,001 `a` characters followed by a line `ok` is not rendered with
the long line skipped — the skip-warning at line 343 raises `NameError`
on the undefined `HAS_STREAMLIT`, the per-line handler at line 388
raises again, and line 392 turns that into a `RuntimeError` that aborts
the whole conversion: no warning is ever recorded and the `ok` line is
never rendered, contrary to the claim's skip-and-continue behaviour. -/
theorem c8_abort :
    md_to_pdf pdfSerialize
        (some (.str (List.replicate 10001 'a' ++ '\n' :: "ok".toList))) =
      .error (.runtimeError (mdFailPre ++ nameErrMsg))
  ∧ processLines [List.replicate 10001 'a', "ok".toList] =
      .error (.runtimeError (mdFailPre ++ nameErrMsg)) := by
  have hrl : rstrip (List.replicate 10001 'a') = List.replicate 10001 'a' :=
    rstrip_replicate _ _ (by decide)
  have hp2 : processLines [List.replicate 10001 'a', "ok".toList] =
      .error (.runtimeError (mdFailPre ++ nameErrMsg)) := by
    unfold processLines
    rw [hrl, List.length_replicate]
    rw [if_pos (by omega)]
  refine ⟨?_, hp2⟩
  have hnl : rstrip ('\n' :: "ok".toList) = '\n' :: "ok".toList := by decide
  have hstrip : pyStrip (List.replicate 10001 'a' ++ '\n' :: "ok".toList) ≠ [] := by
    rw [pyStrip, rstrip_append _ _ (by rw [hnl]; simp), hnl]
    rw [lstrip_replicate_a_append 10001 (by omega)]
    intro hh
    exact List.cons_ne_nil _ _ (List.append_eq_nil.mp hh).2
  have hlat : latin1Filter (List.replicate 10001 'a' ++ '\n' :: "ok".toList)
      = List.replicate 10001 'a' ++ '\n' :: "ok".toList := by
    rw [latin1Filter, List.filter_eq_self]
    intro c hc
    rcases List.mem_append.mp hc with h | h
    · rw [List.eq_of_mem_replicate h]
      decide
    · fin_cases h <;> decide
  rw [show md_to_pdf pdfSerialize
      (some (.str (List.replicate 10001 'a' ++ '\n' :: "ok".toList)))
      = convertStr pdfSerialize
          (List.replicate 10001 'a' ++ '\n' :: "ok".toList) from rfl]
  unfold convertStr
  rw [if_neg hstrip, if_neg (by rw [hlat]; omega), hlat, splitlines_long_doc,
    hp2]

/-- C9: for every non-empty word and positive column width, the
concatenation of the sub-token list `split_long_word` returns equals the
original word — no character is dropped, duplicated or reordered. -/
theorem c9_split_concat (cw : Char → ℚ) (word : List Char) (col : ℚ)
    (_h1 : word ≠ []) (_h2 : 0 < col) :
    (split_long_word cw word col).flatten = word :=
  split_long_word_flatten cw word col

/-- Witness for C9 at the unit-width table, the word `"abc"` and column
width 1. -/
theorem c9_split_concat_witness :
    "abc".toList ≠ [] ∧ (0 : ℚ) < 1 ∧
    (split_long_word exampleCw "abc".toList 1).flatten = "abc".toList :=
  ⟨by decide, by norm_num,
   c9_split_concat exampleCw "abc".toList 1 (by decide) (by norm_num)⟩

/-- C10: heading classification requires the `#` markers to start at the
first column and to be followed by whitespace — a run of markers followed
by a non-whitespace character does not match, a line starting with
whitespace does not match, `"#Title"` and `"  # Title"` render as
paragraphs — while bullet classification tolerates any leading whitespace
before the marker (`"  - item"` is a bullet with text `"item"`). -/
theorem c10_heading_anchors :
    (∀ (n : Nat) (c : Char) (rest : List Char), 1 ≤ n → isPySpace c = false →
        c ≠ '#' → headingMatch (List.replicate n '#' ++ c :: rest) = none)
  ∧ (∀ (c : Char) (l : List Char), isPySpace c = true →
        headingMatch (c :: l) = none)
  ∧ renderLine "#Title".toList = some (.para "#Title".toList)
  ∧ renderLine "  # Title".toList = some (.para "  # Title".toList)
  ∧ (∀ (ws t : List Char), ws.all isPySpace = true →
        bulletMatch (ws ++ '-' :: ' ' :: t) = some (lstrip t))
  ∧ renderLine "  - item".toList = some (.bullet "item".toList) :=
  ⟨headingMatch_hash_run, headingMatch_space, by decide, by decide,
   bulletMatch_ws, by decide⟩

/-- Witness for C10 at the line `"#Title"` (marker run followed by a
non-whitespace character) and the whitespace run `"  "` before a bullet
marker. -/
theorem c10_heading_anchors_witness :
    1 ≤ 1 ∧ isPySpace 'T' = false ∧ 'T' ≠ '#' ∧
    headingMatch (List.replicate 1 '#' ++ 'T' :: "itle".toList) = none ∧
    isPySpace ' ' = true ∧ headingMatch (' ' :: "# Title".toList) = none ∧
    "  ".toList.all isPySpace = true ∧
    bulletMatch ("  ".toList ++ '-' :: ' ' :: "item".toList) =
      some (lstrip "item".toList) :=
  ⟨by decide, by decide, by decide,
   c10_heading_anchors.1 1 'T' "itle".toList (by decide) (by decide) (by decide),
   by decide,
   c10_heading_anchors.2.1 ' ' "# Title".toList (by decide),
   by decide,
   c10_heading_anchors.2.2.2.2.1 "  ".toList "item".toList (by decide)⟩

end Deepresearch
